import Mathlib

/-!
Shallow embedding of the a3t repository's core logic, together with proofs of
the behavioural claims stated about it.

Embedded source files:
* `src/src/asr/asr_utils.py` — `make_batchset`, `load_inputs_and_targets`,
  `load_labeldict`
* `src/tools/check_install.py` — the library-availability check loop
* `src/espnet/nets/pytorch_backend/frontends/frontend.py` — `Frontend.forward`
* `src/espnet2/gan_tts/vits/residual_block.py` — `WaveNetResidualBlock`

Machine integers are modelled as `Nat`/`Int`; Python's `int(a / b)` on
non-negative integers is modelled as `Nat` floor division.  Python's stable
`sorted` is modelled by `List.insertionSort` (stable for the total preorders
used here).  Fallible Python operations (index errors, unpacking errors,
uncaught exceptions, shape mismatches) are modelled with `Option`/`Except`.
-/

set_option autoImplicit false

namespace A3T

variable {α : Type}

/-- Accumulating splitter over the character list: collect maximal
whitespace-free runs, dropping empty fields. -/
def splitWsAux : List Char → List Char → List (List Char)
  | [], acc => if acc = [] then [] else [acc.reverse]
  | c :: cs, acc =>
    if c.isWhitespace then
      if acc = [] then splitWsAux cs [] else acc.reverse :: splitWsAux cs []
    else
      splitWsAux cs (c :: acc)

/-- Python's `str.split()` with no separator: split on whitespace runs and
drop empty fields. -/
def pySplit (s : String) : List String :=
  (splitWsAux s.toList []).map (fun cs => String.mk cs)

/-- Value of a non-empty all-digit run. -/
def digitsValAux : List Char → Nat → Option Nat
  | [], acc => some acc
  | c :: cs, acc =>
    if c.isDigit then digitsValAux cs (acc * 10 + (c.toNat - '0'.toNat)) else none

/-- Value of a non-empty all-digit character list (`none` otherwise). -/
def digitsVal : List Char → Option Nat
  | [] => none
  | c :: cs => digitsValAux (c :: cs) 0

/-- Python's `int(s)` on an already-whitespace-trimmed token: an optional
sign followed by at least one digit, `ValueError` (`none`) otherwise. -/
def pyParseInt (s : String) : Option Int :=
  match s.toList with
  | '-' :: cs => (digitsVal cs).map (fun n => -(n : Int))
  | '+' :: cs => (digitsVal cs).map (fun n => (n : Int))
  | cs => (digitsVal cs).map (fun n => (n : Int))

/-- The value Python's `int(s)` returns on a token it accepts.  Used only in
theorem statements, under a hypothesis that every token parses
(`pyParseInt` is the fallible model of `int()` used by the embeddings
themselves). -/
def pyInt (s : String) : Int :=
  (pyParseInt s).getD 0

/-! ### Data model of `data.json` utterance entries (`asr_utils.py`)

An utterance value `data[k]` is a dict with `input`/`output` lists; the code
accesses `input[0]['shape'][0]`, `output[0]['shape'][0]`, `input[0]['feat']`,
`input[1]['feat']` and `output[0]['tokenid']`.  The embedding carries exactly
these projections; the external Kaldi archives are modelled by storing the
matrix/vector that `kaldi_io_py` would read for the `feat` keys. -/

structure Utt where
  /-- `u['input'][0]['shape'][0]` -/
  inputShape0 : Nat
  /-- `u['output'][0]['shape'][0]` -/
  outputShape0 : Nat
  /-- matrix `kaldi_io_py.read_mat(u['input'][0]['feat'])`, as list of rows -/
  feat : List (List Int)
  /-- vector `kaldi_io_py.read_vec_flt(u['input'][1]['feat'])` -/
  spemb : List Int
  /-- `u['output'][0]['tokenid']` -/
  tokenid : String
deriving DecidableEq

/-- The sort key of `make_batchset`: `int(data[1]['input'][0]['shape'][0])`,
sorted `reverse=True`.  Python's `sorted` is stable; `List.insertionSort`
with the reflexive total relation below is the same stable descending sort. -/
def batchsetLE (a b : String × Utt) : Prop :=
  b.2.inputShape0 ≤ a.2.inputShape0

instance : DecidableRel batchsetLE := fun a b =>
  inferInstanceAs (Decidable (b.2.inputShape0 ≤ a.2.inputShape0))

instance : IsTotal (String × Utt) batchsetLE :=
  ⟨fun a b => Nat.le_total b.2.inputShape0 a.2.inputShape0⟩

instance : IsTrans (String × Utt) batchsetLE :=
  ⟨fun _ _ _ hab hbc => le_trans hbc hab⟩

/-- The `while True` loop of `make_batchset` over the sorted list: at each
start position read `ilen`/`olen` of the first remaining entry, compute
`b = max(1, int(batch_size / (1 + max(ilen // max_length_in, olen // max_length_out))))`
and emit `sorted_data[start:end]` with `end = min(len, start + b)`. -/
def chunkBatches (batch_size max_length_in max_length_out : Nat) :
    List (String × Utt) → List (List (String × Utt))
  | [] => []
  | e :: rest =>
    let ilen := e.2.inputShape0
    let olen := e.2.outputShape0
    let factor := max (ilen / max_length_in) (olen / max_length_out)
    let b := max 1 (batch_size / (1 + factor))
    ((e :: rest).take b) :: chunkBatches batch_size max_length_in max_length_out ((e :: rest).drop b)
termination_by l => l.length
decreasing_by
  simp only [List.length_drop, List.length_cons]
  omega

/-- `make_batchset(data, batch_size, max_length_in, max_length_out, num_batches=0)`.
`data.items()` is modelled as an association list in insertion order.  On an
empty mapping the source raises `IndexError` at `sorted_data[start]`,
modelled as `none`. -/
def make_batchset (data : List (String × Utt))
    (batch_size max_length_in max_length_out : Nat) (num_batches : Nat) :
    Option (List (List (String × Utt))) :=
  let sorted_data := List.insertionSort batchsetLE data
  match sorted_data with
  | [] => none
  | e :: rest =>
    let minibatch := chunkBatches batch_size max_length_in max_length_out (e :: rest)
    some (if 0 < num_batches then minibatch.take num_batches else minibatch)

/-- Stable ascending sort key `-len(xs[i])` of `load_inputs_and_targets`,
i.e. descending by feature length. -/
def liatLE (xs : List (List (List Int))) (i j : Nat) : Prop :=
  (xs.getD j []).length ≤ (xs.getD i []).length

instance (xs : List (List (List Int))) : DecidableRel (liatLE xs) := fun i j =>
  inferInstanceAs (Decidable ((xs.getD j []).length ≤ (xs.getD i []).length))

instance (xs : List (List (List Int))) : IsTotal Nat (liatLE xs) :=
  ⟨fun i j => Nat.le_total (xs.getD j []).length (xs.getD i []).length⟩

instance (xs : List (List (List Int))) : IsTrans Nat (liatLE xs) :=
  ⟨fun _ _ _ hab hbc => le_trans hbc hab⟩

/-- `np.fromiter(map(int, toks), dtype=np.int64)`: convert every token with
`int()`, raising `ValueError` (`none`) on an unparsable one. -/
def fromiterInt : List String → Option (List Int)
  | [] => some []
  | t :: ts => (pyParseInt t).bind (fun v => (fromiterInt ts).map (fun vs => v :: vs))

/-- The list comprehension
`[np.fromiter(map(int, ys[i]), dtype=np.int64) for i in nonzero_sorted_idx]`,
raising (`none`) if any conversion raises. -/
def collectYs (ys : List (List String)) : List Nat → Option (List (List Int))
  | [] => some []
  | i :: idxs =>
    (fromiterInt (ys.getD i [])).bind
      (fun l => (collectYs ys idxs).map (fun ls => l :: ls))

/-- The body of `load_inputs_and_targets` (lines 70–90 of `asr_utils.py`):
read features and split token strings, keep the samples with a non-empty
token split, stably sort the kept indices by feature length descending, and
select the feature, token-id and (when requested) speaker-embedding lists.
`none` models the `ValueError` of `int()` on an unparsable token. -/
def load_inputs_and_targets_body (batch : List (String × Utt))
    (use_speaker_embedding : Bool) :
    Option (List (List (List Int)) × List (List Int) × Option (List (List Int))) :=
  let xs := batch.map (fun b => b.2.feat)
  let ys := batch.map (fun b => pySplit b.2.tokenid)
  let nonzero_idx := (List.range xs.length).filter (fun i => 0 < (ys.getD i []).length)
  let nonzero_sorted_idx := List.insertionSort (liatLE xs) nonzero_idx
  let xs2 := nonzero_sorted_idx.map (fun i => xs.getD i [])
  (collectYs ys nonzero_sorted_idx).map (fun ys2 =>
    if use_speaker_embedding then
      let spembs := batch.map (fun b => b.2.spemb)
      let spembs2 := nonzero_sorted_idx.map (fun i => spembs.getD i [])
      (xs2, ys2, some spembs2)
    else
      (xs2, ys2, none))

/-- `isinstance(x, dict)` for a batch element: the elements are
`(uttid, info)` pairs — the shape the body's `b[1]['input']` accesses
require — never dicts. -/
def isinstanceDict (_ : String × Utt) : Bool :=
  false

/-- `load_inputs_and_targets(batch, use_speaker_embedding)`.  The source
first runs `assert isinstance(batch[0], dict)`: on an empty batch `batch[0]`
raises `IndexError`, and on a non-empty batch the check is false for the
`(uttid, info)` pair elements, so the assert raises `AssertionError`; either
way the function raises (`none`) before reaching its body,
`load_inputs_and_targets_body`. -/
def load_inputs_and_targets (batch : List (String × Utt))
    (use_speaker_embedding : Bool) :
    Option (List (List (List Int)) × List (List Int) × Option (List (List Int))) :=
  match batch with
  | [] => none
  | b0 :: _ =>
    if isinstanceDict b0 then
      load_inputs_and_targets_body batch use_speaker_embedding
    else
      none

/-! ### `load_labeldict` (`asr_utils.py`)

A Python dict with string keys and int values, modelled as an association
list in insertion order.  Assigning to an existing key updates it in place;
assigning to a new key appends it.  `len` is the number of entries. -/

/-- Python dict assignment `d[k] = v` on an insertion-ordered association
list: an existing key is updated in place, a new key is appended.  (Keys are
unique in a Python dict, so updating the first occurrence is the same as
updating the occurrence.) -/
def dictAssign : List (String × Int) → String → Int → List (String × Int)
  | [], k, v => [(k, v)]
  | p :: rest, k, v => if p.1 = k then (k, v) :: rest else p :: dictAssign rest k v

/-- Python `k in d`. -/
def dictHas (d : List (String × Int)) (k : String) : Bool :=
  d.any (fun p => p.1 = k)

/-- One line of the `load_labeldict` reading loop: `s, i = ln.split()`
(raising `ValueError` unless the line splits into exactly two fields,
modelled as `none`), then `labeldict[s] = int(i)`. -/
def labeldictStep (acc : Option (List (String × Int))) (ln : String) :
    Option (List (String × Int)) :=
  acc.bind (fun d =>
    match pySplit ln with
    | [s, i] => (pyParseInt i).map (fun v => dictAssign d s v)
    | _ => none)

/-- The line-reading loop of `load_labeldict`, starting from
`{'<blank>': 0}`. -/
def labeldictRead (lines : List String) : Option (List (String × Int)) :=
  lines.foldl labeldictStep (some [("<blank>", 0)])

/-- `load_labeldict(dict_file)` on the list of lines of the file: read all
lines, then if `'<eos>'` is not a key, set `labeldict['<eos>'] = len(labeldict)`. -/
def load_labeldict (lines : List String) : Option (List (String × Int)) :=
  (labeldictRead lines).map (fun d =>
    if dictHas d "<eos>" then d else d ++ [("<eos>", (d.length : Int))])

/-! ### `check_install.py` library-availability check loop

The environment is a function from module names to the result of
`importlib.import_module`: `none` means the import raises `ImportError`;
`some v?` means the module imports, with `v? = some ver` when it has a
`__version__` attribute equal to `ver` and `v? = none` when the attribute is
missing (so that `lib.__version__` raises `AttributeError`). -/

/-- Log levels used by the check script. -/
inductive LogLevel
  | info
  | warning
deriving DecidableEq

/-- Uncaught Python exceptions that can escape the check loop. -/
inductive PyExc
  | importErr
  | attributeErr
deriving DecidableEq

/-- One iteration of the `for idx, (name, version) in enumerate(library_list)`
loop: returns the flag written to `is_collect_installed_list[idx]` and the
log records emitted, or the uncaught exception that terminates the script.
The first `try` catches only `ImportError`; the second `try` re-imports the
module and catches only `AssertionError`, so a pinned module that is not
importable (or lacks `__version__`) raises out of the loop. -/
def checkLibStep (env : String → Option (Option String))
    (name : String) (version : Option String) :
    Except PyExc (Bool × List LogLevel) :=
  let first : Bool × List LogLevel :=
    match env name with
    | some _ => (true, [LogLevel.info])
    | none => (false, [LogLevel.warning])
  match version with
  | none => Except.ok first
  | some v =>
    match env name with
    | none => Except.error PyExc.importErr
    | some none => Except.error PyExc.attributeErr
    | some (some ver) =>
      if ver = v then Except.ok (true, first.2 ++ [LogLevel.info])
      else Except.ok (false, first.2 ++ [LogLevel.warning])

/-- The whole check loop over `library_list`: collects the
`is_collect_installed_list` flags and all emitted log records, stopping with
the exception if an iteration raises. -/
def checkLibraries (env : String → Option (Option String)) :
    List (String × Option String) → Except PyExc (List Bool × List LogLevel)
  | [] => Except.ok ([], [])
  | (name, version) :: rest =>
    match checkLibStep env name version with
    | Except.error e => Except.error e
    | Except.ok (flag, logs) =>
      match checkLibraries env rest with
      | Except.error e => Except.error e
      | Except.ok (flags, logs') => Except.ok (flag :: flags, logs ++ logs')

/-! ### `Frontend.forward` (`frontend.py`)

The complex feature tensor is modelled by its shape (plus an opaque payload);
the two enhancement stages `DNN_WPE` and `DNN_MVDR` live outside the
embedded sources, so they are opaque fields of the frontend, arbitrary
functions on tensors and lengths.  The outcome of
`numpy.random.shuffle([True, False])` is an explicit boolean argument
`coin` of `forward` (`coin = true` means the list stays `[True, False]`,
i.e. WPE is selected). -/

structure CTensor where
  shape : List Nat
  payload : List Int
deriving DecidableEq

/-- `x.dim()`. -/
def CTensor.dim (x : CTensor) : Nat :=
  x.shape.length

/-- `len(x)`: the size of the first dimension. -/
def CTensor.len (x : CTensor) : Nat :=
  x.shape.headD 0

/-- Errors raised by `Frontend.forward`: the `assert len(x) == len(ilens)`
and the `ValueError('Input dim must be 3 or 4: ...')`. -/
inductive FrontendErr
  | assertLen
  | dimValueErr
deriving DecidableEq

structure Frontend where
  use_wpe : Bool
  use_beamformer : Bool
  use_dnn_mask_for_wpe : Bool
  /-- the `nn.Module` training flag -/
  training : Bool
  /-- `self.wpe.__call__` (a `DNN_WPE` module, external to the embedded sources) -/
  wpe : CTensor → List Nat → CTensor × List Nat
  /-- `self.beamformer.__call__` (a `DNN_MVDR` module, external to the embedded sources) -/
  beamformer : CTensor → List Nat → CTensor × List Nat

/-- `Frontend.forward(x, ilens)` with the coin flip made explicit. -/
def Frontend.forward (f : Frontend) (coin : Bool) (x : CTensor)
    (ilens : List Nat) : Except FrontendErr (CTensor × List Nat) :=
  if x.len ≠ ilens.length then Except.error FrontendErr.assertLen
  else if ¬ (x.dim = 3 ∨ x.dim = 4) then Except.error FrontendErr.dimValueErr
  else if x.dim = 4 then
    let sel : Bool × Bool :=
      if f.training ∧ f.use_beamformer ∧ f.use_wpe ∧ f.use_dnn_mask_for_wpe then
        (coin, !coin)
      else
        (f.use_wpe, f.use_beamformer)
    let h1 := if sel.1 then f.wpe x ilens else (x, ilens)
    let h2 := if sel.2 then f.beamformer h1.1 h1.2 else h1
    Except.ok h2
  else
    Except.ok (x, ilens)

/-! ### `WaveNetResidualBlock` (`residual_block.py`)

Tensors of shape `(B, C, T)` are modelled as dimensions plus a total value
function; values are taken in an arbitrary commutative ring, with the
transcendental scalar functions (`torch.tanh`, `torch.sigmoid`) and the
constant `math.sqrt(0.5)` as uninterpreted operations, so that the gating
formula is stated at the level the checkpoint-parity requirement fixes it.
Shape-incompatible torch operations raise, modelled as `none`; the
element-wise additions broadcast along the time axis (the only broadcasting
exercised by this module, via the `(B, global_channels, 1)` tensor `g`). -/

structure ScalarOps (α : Type) where
  tanh : α → α
  sigmoid : α → α
  /-- `math.sqrt(0.5)` -/
  sqrtHalf : α

/-- A `(B, C, T)` tensor. -/
structure T3 (α : Type) where
  B : Nat
  C : Nat
  T : Nat
  v : Nat → Nat → Nat → α

/-- Parameters of a `torch.nn.Conv1d(inC, outC, kernel, padding=padding,
dilation=dilation)`; a bias-free convolution has `b = fun _ => 0`. -/
structure Conv1dParams (α : Type) where
  outC : Nat
  inC : Nat
  kernel : Nat
  padding : Nat
  dilation : Nat
  w : Nat → Nat → Nat → α
  b : Nat → α

/-- The value of a 1-d convolution with zero padding at batch `bi`, output
channel `oc`, time `t`. -/
def convVal [CommRing α] (p : Conv1dParams α) (x : T3 α)
    (bi oc t : Nat) : α :=
  p.b oc + ∑ ic ∈ Finset.range p.inC, ∑ k ∈ Finset.range p.kernel,
    (if p.padding ≤ t + k * p.dilation ∧ t + k * p.dilation - p.padding < x.T then
      p.w oc ic k * x.v bi ic (t + k * p.dilation - p.padding)
    else 0)

/-- `torch.nn.Conv1d` applied to a `(B, C, T)` tensor: raises unless the
input channel count matches; the output length is
`T + 2*padding - dilation*(kernel - 1)` (stride 1). -/
def conv1d [CommRing α] (p : Conv1dParams α) (x : T3 α) : Option (T3 α) :=
  if x.C = p.inC then
    some { B := x.B, C := p.outC,
           T := x.T + 2 * p.padding - p.dilation * (p.kernel - 1),
           v := fun bi oc t => convVal p x bi oc t }
  else
    none

/-- Element-wise `+` with torch broadcasting along the time axis (both
operands here always agree in `B` and `C`; a length-1 time axis is
stretched, otherwise the lengths must agree or torch raises). -/
def tAdd [Add α] (x y : T3 α) : Option (T3 α) :=
  if x.B = y.B ∧ x.C = y.C ∧ (x.T = y.T ∨ x.T = 1 ∨ y.T = 1) then
    some { B := x.B, C := x.C, T := max x.T y.T,
           v := fun b c t =>
             x.v b c (if x.T = 1 then 0 else t) + y.v b c (if y.T = 1 then 0 else t) }
  else
    none

/-- Element-wise `*` under the same shape discipline as `tAdd`. -/
def tMul [Mul α] (x y : T3 α) : Option (T3 α) :=
  if x.B = y.B ∧ x.C = y.C ∧ (x.T = y.T ∨ x.T = 1 ∨ y.T = 1) then
    some { B := x.B, C := x.C, T := max x.T y.T,
           v := fun b c t =>
             x.v b c (if x.T = 1 then 0 else t) * y.v b c (if y.T = 1 then 0 else t) }
  else
    none

/-- Apply a scalar function element-wise (`torch.tanh`, `torch.sigmoid`). -/
def tMap (f : α → α) (x : T3 α) : T3 α :=
  { x with v := fun b c t => f (x.v b c t) }

/-- Multiply every element by a scalar on the right (`... * math.sqrt(0.5)`). -/
def tScale [Mul α] (s : α) (x : T3 α) : T3 α :=
  { x with v := fun b c t => x.v b c t * s }

/-- `xa, xb = x.split(x.size(1) // 2, dim=1)`: chunks of size `C // 2`
along the channel axis; unpacking into exactly two tensors fails unless
`C` is even and positive. -/
def splitHalves (x : T3 α) : Option (T3 α × T3 α) :=
  let n := x.C / 2
  if x.C = 2 * n ∧ 0 < n then
    some ({ x with C := n },
          { x with C := n, v := fun b c t => x.v b (c + n) t })
  else
    none

/-- `F.dropout(x, p=rate, training=training)`: the identity in eval mode; in
training mode each element is multiplied by the realised random factor
`dmask` (`0` or `1/(1-p)` in torch), which the model takes as an argument. -/
def dropoutT [Mul α] (training : Bool) (dmask : Nat → Nat → Nat → α)
    (x : T3 α) : T3 α :=
  if training then { x with v := fun b c t => dmask b c t * x.v b c t } else x

/-- The initialised `WaveNetResidualBlock` module: hyperparameters plus the
weights of its convolutions.  `conv1x1_aux`/`conv1x1_glo`/`conv1x1_skip`
exist only when the corresponding channel count is positive, which the
forward model checks before using the weights. -/
structure WNBlock (α : Type) where
  kernel_size : Nat
  residual_channels : Nat
  gate_channels : Nat
  skip_channels : Nat
  aux_channels : Int
  global_channels : Int
  dilation : Nat
  use_causal_conv : Bool
  /-- `self.conv` weight, `[gate_channels][residual_channels][kernel_size]` -/
  convW : Nat → Nat → Nat → α
  /-- `self.conv` bias -/
  convB : Nat → α
  /-- `self.conv1x1_aux` weight, `[gate_channels][aux_channels]` (no bias) -/
  auxW : Nat → Nat → α
  /-- `self.conv1x1_glo` weight, `[gate_channels][global_channels]` (no bias) -/
  gloW : Nat → Nat → α
  /-- `self.conv1x1_out` weight, `[residual_channels][gate_channels // 2]` -/
  outW : Nat → Nat → α
  /-- `self.conv1x1_out` bias -/
  outB : Nat → α
  /-- `self.conv1x1_skip` weight, `[skip_channels][gate_channels // 2]` -/
  skipW : Nat → Nat → α
  /-- `self.conv1x1_skip` bias -/
  skipB : Nat → α

/-- Padding computed in `__init__`: `(kernel_size - 1) * dilation` for a
causal conv, else `(kernel_size - 1) // 2 * dilation`. -/
def WNBlock.padding (blk : WNBlock α) : Nat :=
  if blk.use_causal_conv then (blk.kernel_size - 1) * blk.dilation
  else (blk.kernel_size - 1) / 2 * blk.dilation

/-- The `__init__` assertion `(kernel_size - 1) % 2 == 0` for non-causal
blocks (construction raises otherwise). -/
def WNBlock.initOK (blk : WNBlock α) : Prop :=
  blk.use_causal_conv = true ∨ (blk.kernel_size - 1) % 2 = 0

/-- `self.conv`: the dilated convolution. -/
def WNBlock.dilConv [CommRing α] (blk : WNBlock α) : Conv1dParams α :=
  { outC := blk.gate_channels, inC := blk.residual_channels,
    kernel := blk.kernel_size, padding := blk.padding,
    dilation := blk.dilation, w := blk.convW, b := blk.convB }

/-- `self.conv1x1_aux` (bias-free). -/
def WNBlock.auxConv [CommRing α] (blk : WNBlock α) : Conv1dParams α :=
  { outC := blk.gate_channels, inC := blk.aux_channels.toNat,
    kernel := 1, padding := 0, dilation := 1,
    w := fun oc ic _ => blk.auxW oc ic, b := fun _ => 0 }

/-- `self.conv1x1_glo` (bias-free). -/
def WNBlock.gloConv [CommRing α] (blk : WNBlock α) : Conv1dParams α :=
  { outC := blk.gate_channels, inC := blk.global_channels.toNat,
    kernel := 1, padding := 0, dilation := 1,
    w := fun oc ic _ => blk.gloW oc ic, b := fun _ => 0 }

/-- `self.conv1x1_out`. -/
def WNBlock.outConv [CommRing α] (blk : WNBlock α) : Conv1dParams α :=
  { outC := blk.residual_channels, inC := blk.gate_channels / 2,
    kernel := 1, padding := 0, dilation := 1,
    w := fun oc ic _ => blk.outW oc ic, b := blk.outB }

/-- `self.conv1x1_skip`. -/
def WNBlock.skipConv [CommRing α] (blk : WNBlock α) : Conv1dParams α :=
  { outC := blk.skip_channels, inC := blk.gate_channels / 2,
    kernel := 1, padding := 0, dilation := 1,
    w := fun oc ic _ => blk.skipW oc ic, b := blk.skipB }

/-- `WaveNetResidualBlock.forward(x, c, g)`; `none` models a raised torch
error (shape mismatch, calling a `None` submodule, failed tuple unpacking). -/
def WNBlock.forward [CommRing α] (ops : ScalarOps α) (blk : WNBlock α)
    (training : Bool) (dmask : Nat → Nat → Nat → α)
    (x : T3 α) (c : Option (T3 α)) (g : Option (T3 α)) :
    Option (T3 α × Option (T3 α)) := do
  let residual := x
  let x1 := dropoutT training dmask x
  let x2 ← conv1d blk.dilConv x1
  let (xa0, xb0) ← splitHalves x2
  let (xa1, xb1) ←
    match c with
    | none => some (xa0, xb0)
    | some c0 =>
      if 0 < blk.aux_channels then do
        let c1 ← conv1d blk.auxConv c0
        let (ca, cb) ← splitHalves c1
        let xa ← tAdd xa0 ca
        let xb ← tAdd xb0 cb
        some (xa, xb)
      else
        none
  let (xa2, xb2) ←
    match g with
    | none => some (xa1, xb1)
    | some g0 =>
      if 0 < blk.global_channels then do
        let g1 ← conv1d blk.gloConv g0
        let (ga, gb) ← splitHalves g1
        let xa ← tAdd xa1 ga
        let xb ← tAdd xb1 gb
        some (xa, xb)
      else
        none
  let gated ← tMul (tMap ops.tanh xa2) (tMap ops.sigmoid xb2)
  let s ←
    if 0 < blk.skip_channels then do
      let s0 ← conv1d blk.skipConv gated
      some (some s0)
    else
      some (none : Option (T3 α))
  let out1 ← conv1d blk.outConv gated
  let summed ← tAdd out1 residual
  some (tScale ops.sqrtHalf summed, s)

/-! ### Spec-side formulation of the gated residual block (for C8)

The following definitions transcribe the specification's description of the
block — "applies a dilated convolution, splits the output channel-wise into
two halves, optionally adds projected auxiliary/global conditioning to each
half, then combines via tanh-gate times sigmoid-gate, producing a residual
output scaled by `1/sqrt 2` and an optional skip output" — to be compared
against the embedded `WNBlock.forward`. -/

/-- First gate half per the spec, at `(b, oc, t)`: the dilated convolution
of `x`, plus the first halves of the projected local and global
conditionings (the global conditioning has time length 1, hence time
index 0). -/
def specXa [CommRing α] (blk : WNBlock α) (x c0 g0 : T3 α) (b oc t : Nat) : α :=
  convVal blk.dilConv x b oc t + convVal blk.auxConv c0 b oc t +
    convVal blk.gloConv g0 b oc 0

/-- Second gate half per the spec: channels offset by `gate_channels / 2`. -/
def specXb [CommRing α] (blk : WNBlock α) (x c0 g0 : T3 α) (b oc t : Nat) : α :=
  convVal blk.dilConv x b (oc + blk.gate_channels / 2) t +
    convVal blk.auxConv c0 b (oc + blk.gate_channels / 2) t +
    convVal blk.gloConv g0 b (oc + blk.gate_channels / 2) 0

/-- Gated activation per the spec: `tanh(xa) * sigmoid(xb)`. -/
def specGated [CommRing α] (ops : ScalarOps α) (blk : WNBlock α)
    (x c0 g0 : T3 α) : T3 α :=
  { B := x.B, C := blk.gate_channels / 2, T := x.T,
    v := fun b oc t =>
      ops.tanh (specXa blk x c0 g0 b oc t) * ops.sigmoid (specXb blk x c0 g0 b oc t) }

/-- Residual output per the spec: `(conv1x1_out(gated) + x) * sqrt(0.5)`,
shaped like the input. -/
def specResidualOut [CommRing α] (ops : ScalarOps α) (blk : WNBlock α)
    (x c0 g0 : T3 α) : T3 α :=
  { B := x.B, C := x.C, T := x.T,
    v := fun b ch t =>
      (convVal blk.outConv (specGated ops blk x c0 g0) b ch t + x.v b ch t) *
        ops.sqrtHalf }

/-- Skip output per the spec: `conv1x1_skip(gated)`, with `skip_channels`
channels. -/
def specSkipOut [CommRing α] (ops : ScalarOps α) (blk : WNBlock α)
    (x c0 g0 : T3 α) : T3 α :=
  { B := x.B, C := blk.skip_channels, T := x.T,
    v := fun b ch t => convVal blk.skipConv (specGated ops blk x c0 g0) b ch t }

/-! ## Concrete fixtures used by witnesses and counterexamples -/

/-- Identity scalar operations over `Int`, for concrete evaluations (the
transcendental functions are uninterpreted in the model). -/
def opsIdInt : ScalarOps Int :=
  { tanh := fun z => z, sigmoid := fun z => z, sqrtHalf := 1 }

/-- A causal residual block with kernel size 3 (all weights 1, biases 0). -/
def wnBlockCausal : WNBlock Int :=
  { kernel_size := 3, residual_channels := 1, gate_channels := 2,
    skip_channels := 1, aux_channels := -1, global_channels := -1,
    dilation := 1, use_causal_conv := true,
    convW := fun _ _ _ => 1, convB := fun _ => 0,
    auxW := fun _ _ => 1, gloW := fun _ _ => 1,
    outW := fun _ _ => 1, outB := fun _ => 0,
    skipW := fun _ _ => 1, skipB := fun _ => 0 }

/-- A non-causal kernel-size-1 residual block with local and global
conditioning enabled (all weights 1, biases 0). -/
def wnBlockWit : WNBlock Int :=
  { kernel_size := 1, residual_channels := 1, gate_channels := 2,
    skip_channels := 1, aux_channels := 1, global_channels := 1,
    dilation := 1, use_causal_conv := false,
    convW := fun _ _ _ => 1, convB := fun _ => 0,
    auxW := fun _ _ => 1, gloW := fun _ _ => 1,
    outW := fun _ _ => 1, outB := fun _ => 0,
    skipW := fun _ _ => 1, skipB := fun _ => 0 }

/-- An all-zero `(B, C, T)` tensor over `Int`. -/
def t3Zero (B C T : Nat) : T3 Int :=
  { B := B, C := C, T := T, v := fun _ _ _ => 0 }

/-- The label dictionary produced from the one-line file `"a 1"`. -/
def labeldictWitDict : List (String × Int) :=
  [("<blank>", 0), ("a", 1), ("<eos>", 2)]

/-- A concrete utterance with a 3-frame input and a 2-token output. -/
def uttA : Utt :=
  { inputShape0 := 3, outputShape0 := 2, feat := [[0], [0], [0]],
    spemb := [1], tokenid := "1 2" }

/-- A concrete utterance with a 5-frame input and a 1-token output. -/
def uttB : Utt :=
  { inputShape0 := 5, outputShape0 := 1, feat := [[0], [0], [0], [0], [0]],
    spemb := [2], tokenid := "3" }

/-- A concrete utterance whose `tokenid` splits to the empty sequence. -/
def uttEmptyTok : Utt :=
  { inputShape0 := 4, outputShape0 := 1, feat := [[0], [0], [0], [0]],
    spemb := [3], tokenid := "  " }

/-- Dummy utterance used as an irrelevant `getD` default. -/
def uttDummy : String × Utt :=
  ("", { inputShape0 := 0, outputShape0 := 0, feat := [], spemb := [], tokenid := "" })

/-- A concrete frontend with all stages enabled and identity stage modules. -/
def frontendWit : Frontend :=
  { use_wpe := true, use_beamformer := true, use_dnn_mask_for_wpe := true,
    training := true,
    wpe := fun x ilens => (x, ilens),
    beamformer := fun x ilens => (x, ilens) }

/-- A concrete 3-dimensional feature tensor with first dimension 2. -/
def ct3 : CTensor := { shape := [2, 5, 7], payload := [] }

/-- A concrete 4-dimensional feature tensor with first dimension 2. -/
def ct4 : CTensor := { shape := [2, 5, 3, 7], payload := [] }

/-! ## Helper lemmas -/

lemma foldl_labeldictStep_none (lines : List String) :
    lines.foldl labeldictStep none = none := by
  induction lines with
  | nil => rfl
  | cons ln rest ih => simpa [labeldictStep] using ih

lemma dictAssign_lookup_ne (k s : String) (v : Int) (h : k ≠ s) :
    ∀ d : List (String × Int), (dictAssign d s v).lookup k = d.lookup k := by
  intro d
  induction d with
  | nil => simp [dictAssign, List.lookup, beq_false_of_ne h]
  | cons p rest ih =>
    obtain ⟨k', v'⟩ := p
    by_cases hp : k' = s
    · subst hp
      simp [dictAssign, List.lookup, beq_false_of_ne h]
    · simp only [dictAssign, if_neg hp]
      by_cases hk : k = k'
      · subst hk
        simp [List.lookup]
      · simp [List.lookup, beq_false_of_ne hk, ih]

lemma dictAssign_has_ne (k s : String) (v : Int) (h : k ≠ s) :
    ∀ d : List (String × Int), dictHas (dictAssign d s v) k = dictHas d k := by
  intro d
  induction d with
  | nil => simp [dictAssign, dictHas, Ne.symm h]
  | cons p rest ih =>
    obtain ⟨k', v'⟩ := p
    by_cases hp : k' = s
    · subst hp
      simp [dictAssign, dictHas, Ne.symm h]
    · simp only [dictAssign, if_neg hp]
      simp only [dictHas, List.any_cons] at ih ⊢
      rw [ih]

lemma labeldictFold_lookup (k : String) :
    ∀ (lines : List String) (d d' : List (String × Int)),
      (∀ ln ∈ lines, (pySplit ln).head? ≠ some k) →
      lines.foldl labeldictStep (some d) = some d' →
      d'.lookup k = d.lookup k := by
  intro lines
  induction lines with
  | nil =>
    intro d d' _ hfold
    cases hfold
    rfl
  | cons ln rest ih =>
    intro d d' hln hfold
    rw [List.foldl_cons] at hfold
    cases hstep : labeldictStep (some d) ln with
    | none =>
      rw [hstep, foldl_labeldictStep_none] at hfold
      cases hfold
    | some d1 =>
      rw [hstep] at hfold
      have hrest : d1.lookup k = d.lookup k := by
        simp only [labeldictStep, Option.bind_eq_bind, Option.some_bind] at hstep
        cases hsp : pySplit ln with
        | nil => rw [hsp] at hstep; cases hstep
        | cons s tl =>
          cases tl with
          | nil => rw [hsp] at hstep; cases hstep
          | cons i tl2 =>
            cases tl2 with
            | cons _ _ => rw [hsp] at hstep; cases hstep
            | nil =>
              rw [hsp] at hstep
              obtain ⟨v, _, hd1⟩ := Option.map_eq_some'.mp hstep
              have hs : s ≠ k := by
                have := hln ln (List.mem_cons_self ln rest)
                rw [hsp] at this
                simp only [List.head?] at this
                intro hcontra
                exact this (by rw [hcontra])
              rw [← hd1]
              exact dictAssign_lookup_ne k s v (Ne.symm hs) d
      rw [ih d1 d' (fun l hl => hln l (List.mem_cons_of_mem ln hl)) hfold, hrest]

lemma labeldictFold_has (k : String) :
    ∀ (lines : List String) (d d' : List (String × Int)),
      (∀ ln ∈ lines, (pySplit ln).head? ≠ some k) →
      lines.foldl labeldictStep (some d) = some d' →
      dictHas d' k = dictHas d k := by
  intro lines
  induction lines with
  | nil =>
    intro d d' _ hfold
    cases hfold
    rfl
  | cons ln rest ih =>
    intro d d' hln hfold
    rw [List.foldl_cons] at hfold
    cases hstep : labeldictStep (some d) ln with
    | none =>
      rw [hstep, foldl_labeldictStep_none] at hfold
      cases hfold
    | some d1 =>
      rw [hstep] at hfold
      have hrest : dictHas d1 k = dictHas d k := by
        simp only [labeldictStep, Option.bind_eq_bind, Option.some_bind] at hstep
        cases hsp : pySplit ln with
        | nil => rw [hsp] at hstep; cases hstep
        | cons s tl =>
          cases tl with
          | nil => rw [hsp] at hstep; cases hstep
          | cons i tl2 =>
            cases tl2 with
            | cons _ _ => rw [hsp] at hstep; cases hstep
            | nil =>
              rw [hsp] at hstep
              obtain ⟨v, _, hd1⟩ := Option.map_eq_some'.mp hstep
              have hs : s ≠ k := by
                have := hln ln (List.mem_cons_self ln rest)
                rw [hsp] at this
                simp only [List.head?] at this
                intro hcontra
                exact this (by rw [hcontra])
              rw [← hd1]
              exact dictAssign_has_ne k s v (Ne.symm hs) d
      rw [ih d1 d' (fun l hl => hln l (List.mem_cons_of_mem ln hl)) hfold, hrest]

lemma lookup_append_of_some (d0 l : List (String × Int)) (k : String) (x : Int)
    (h : d0.lookup k = some x) : (d0 ++ l).lookup k = some x := by
  induction d0 with
  | nil => cases h
  | cons p rest ih =>
    cases p with
    | mk k' v' =>
      by_cases hk : k = k'
      · simp only [List.lookup, hk, beq_self_eq_true] at h ⊢
        simpa using h
      · simp only [List.lookup, beq_false_of_ne hk] at h ⊢
        exact ih h

lemma lookup_eq_none_of_not_has (k : String) :
    ∀ d : List (String × Int), dictHas d k = false → d.lookup k = none := by
  intro d
  induction d with
  | nil => intro _; rfl
  | cons p rest ih =>
    intro h
    simp only [dictHas, List.any_cons, Bool.or_eq_false_iff, decide_eq_false_iff_not] at h
    simp only [List.lookup, beq_false_of_ne (fun hc => h.1 hc.symm)]
    exact ih (by simpa [dictHas] using h.2)

lemma lookup_append_of_none (d0 l : List (String × Int)) (k : String)
    (h : d0.lookup k = none) : (d0 ++ l).lookup k = l.lookup k := by
  induction d0 with
  | nil => rfl
  | cons p rest ih =>
    cases p with
    | mk k' v' =>
      by_cases hk : k = k'
      · simp [List.lookup, hk] at h
      · simp only [List.lookup, beq_false_of_ne hk] at h
        simp only [List.cons_append, List.lookup, beq_false_of_ne hk]
        exact ih h

lemma chunkBatches_flatten (bs mli mlo : Nat) (l : List (String × Utt)) :
    (chunkBatches bs mli mlo l).flatten = l := by
  induction l using chunkBatches.induct bs mli mlo with
  | case1 => simp [chunkBatches]
  | case2 e rest ilen olen factor b ih =>
    rw [chunkBatches]
    simp only [List.flatten_cons, ih]
    exact List.take_append_drop _ _

lemma chunkBatches_mem (bs mli mlo : Nat) (l : List (String × Utt)) :
    ∀ batch ∈ chunkBatches bs mli mlo l,
      ∃ e rest, batch = e :: rest ∧
        batch.length ≤
          max 1 (bs / (1 + max (e.2.inputShape0 / mli) (e.2.outputShape0 / mlo))) := by
  induction l using chunkBatches.induct bs mli mlo with
  | case1 => simp [chunkBatches]
  | case2 e rest ilen olen factor b ih =>
    intro batch hb
    rw [chunkBatches] at hb
    simp only [List.mem_cons] at hb
    rcases hb with hb | hb
    · subst hb
      have hB : 1 ≤ max 1 (bs / (1 + max (e.2.inputShape0 / mli) (e.2.outputShape0 / mlo))) :=
        le_max_left _ _
      refine ⟨e, rest.take (max 1 (bs / (1 + max (e.2.inputShape0 / mli) (e.2.outputShape0 / mlo))) - 1),
        ?_, ?_⟩
      · have hsucc : max 1 (bs / (1 + max (e.2.inputShape0 / mli) (e.2.outputShape0 / mlo)))
            = (max 1 (bs / (1 + max (e.2.inputShape0 / mli) (e.2.outputShape0 / mlo))) - 1) + 1 := by
          omega
        conv_lhs => rw [hsucc]
        rw [List.take_succ_cons]
      · exact List.length_take_le _ _
    · exact ih batch hb

/-! ### Lemmas for `load_inputs_and_targets` -/

lemma getD_map_of_lt {β γ : Type} (l : List β) (g : β → γ) (dg : γ) (d : β)
    (i : Nat) (h : i < l.length) :
    (l.map g).getD i dg = g (l.getD i d) := by
  rw [List.getD_eq_getElem?_getD, List.getD_eq_getElem?_getD, List.getElem?_map,
    List.getElem?_eq_getElem h]
  rfl

lemma range_filter_map_getD {β γ : Type} (l : List β) (d : β) (q : β → Bool)
    (f : β → γ) :
    ((List.range l.length).filter (fun i => q (l.getD i d))).map
        (fun i => f (l.getD i d)) =
      (l.filter q).map f := by
  induction l with
  | nil => rfl
  | cons a l ih =>
    rw [List.length_cons, List.range_succ_eq_map]
    simp only [List.filter_cons, List.getD_cons_zero, List.filter_map,
      List.map_map, Function.comp_def, List.getD_cons_succ]
    by_cases hqa : q a
    · simp only [hqa, if_true, List.map_cons, List.map_map, Function.comp_def,
        List.getD_cons_succ, List.getD_cons_zero]
      rw [ih]
    · simp only [hqa, Bool.false_eq_true, if_false, List.map_map,
        Function.comp_def, List.getD_cons_succ]
      rw [ih]

lemma sorted_map_getD (xs : List (List (List Int))) (idx : List Nat) :
    ((List.insertionSort (liatLE xs) idx).map (fun i => xs.getD i [])).Sorted
      (fun a b => b.length ≤ a.length) :=
  List.Pairwise.map _ (fun _ _ h => h) (List.sorted_insertionSort (liatLE xs) idx)

lemma ys2_mem_ne_nil (batch : List (String × Utt)) :
    ∀ y ∈ (List.insertionSort (liatLE (batch.map (fun b => b.2.feat)))
        ((List.range (batch.map (fun b => b.2.feat)).length).filter
          (fun i =>
            decide (0 < ((batch.map (fun b => pySplit b.2.tokenid)).getD i []).length)))).map
        (fun i => ((batch.map (fun b => pySplit b.2.tokenid)).getD i []).map pyInt),
      y ≠ [] := by
  intro y hy
  obtain ⟨i, hi, rfl⟩ := List.mem_map.mp hy
  have hi0 := (List.perm_insertionSort (liatLE (batch.map (fun b => b.2.feat))) _).mem_iff.mp hi
  have hp := List.of_mem_filter hi0
  have hpos : 0 < ((batch.map (fun b => pySplit b.2.tokenid)).getD i []).length :=
    of_decide_eq_true hp
  have : 0 < (((batch.map (fun b => pySplit b.2.tokenid)).getD i []).map pyInt).length := by
    simpa using hpos
  exact List.ne_nil_of_length_pos this

lemma idxmap_perm_filtered {γ : Type} (batch : List (String × Utt)) (F : Nat → γ)
    (f : (String × Utt) → γ)
    (hF : ∀ i, i < batch.length → F i = f (batch.getD i uttDummy)) :
    ((List.insertionSort (liatLE (batch.map (fun b => b.2.feat)))
        ((List.range (batch.map (fun b => b.2.feat)).length).filter
          (fun i =>
            decide (0 < ((batch.map (fun b => pySplit b.2.tokenid)).getD i []).length)))).map
      F).Perm
      ((batch.filter (fun b => decide (pySplit b.2.tokenid ≠ []))).map f) := by
  refine (List.Perm.map F (List.perm_insertionSort _ _)).trans ?_
  rw [List.length_map]
  have hpred : ∀ i ∈ List.range batch.length,
      (decide (0 < ((batch.map (fun b => pySplit b.2.tokenid)).getD i []).length)) =
        ((fun b => decide (pySplit b.2.tokenid ≠ [])) (batch.getD i uttDummy)) := by
    intro i hi
    have hlt : i < batch.length := List.mem_range.mp hi
    rw [getD_map_of_lt batch (fun b => pySplit b.2.tokenid) [] uttDummy i hlt]
    exact decide_eq_decide.mpr List.length_pos
  rw [List.filter_congr hpred]
  have hmap : ∀ i ∈ (List.range batch.length).filter
      (fun i => (fun b => decide (pySplit b.2.tokenid ≠ [])) (batch.getD i uttDummy)),
      F i = (fun i => f (batch.getD i uttDummy)) i := by
    intro i hi
    exact hF i (List.mem_range.mp (List.mem_of_mem_filter hi))
  rw [List.map_congr_left hmap]
  rw [range_filter_map_getD batch uttDummy (fun b => decide (pySplit b.2.tokenid ≠ [])) f]

lemma getD_mem_of_lt {β : Type} (l : List β) (d : β) (i : Nat) (h : i < l.length) :
    l.getD i d ∈ l := by
  rw [List.getD_eq_getElem?_getD, List.getElem?_eq_getElem h]
  exact List.getElem_mem h

lemma fromiterInt_eq_some (ts : List String)
    (h : ∀ t ∈ ts, (pyParseInt t).isSome) :
    fromiterInt ts = some (ts.map pyInt) := by
  induction ts with
  | nil => rfl
  | cons t ts ih =>
    obtain ⟨v, hv⟩ := Option.isSome_iff_exists.mp (h t (List.mem_cons_self t ts))
    have hval : pyInt t = v := by simp [pyInt, hv]
    simp only [fromiterInt, hv, Option.some_bind,
      ih (fun u hu => h u (List.mem_cons_of_mem t hu)), Option.map_some', List.map_cons,
      hval]

lemma collectYs_eq_some (ys : List (List String)) (idxs : List Nat)
    (h : ∀ i ∈ idxs, fromiterInt (ys.getD i []) = some ((ys.getD i []).map pyInt)) :
    collectYs ys idxs = some (idxs.map (fun i => (ys.getD i []).map pyInt)) := by
  induction idxs with
  | nil => rfl
  | cons i idxs ih =>
    simp only [collectYs, h i (List.mem_cons_self i idxs), Option.some_bind,
      ih (fun j hj => h j (List.mem_cons_of_mem i hj)), Option.map_some', List.map_cons]

lemma load_inputs_and_targets_body_spec
    (batch : List (String × Utt)) (use_spk : Bool)
    (htok : ∀ b ∈ batch, ∀ tok ∈ pySplit b.2.tokenid, (pyParseInt tok).isSome) :
    ∃ xs2 ys2 sp,
      load_inputs_and_targets_body batch use_spk = some (xs2, ys2, sp) ∧
      xs2.length = ys2.length ∧
      (∀ y ∈ ys2, y ≠ []) ∧
      xs2.Sorted (fun a b => b.length ≤ a.length) ∧
      (xs2.zip ys2).Perm
        ((batch.filter (fun b => decide (pySplit b.2.tokenid ≠ []))).map
          (fun b => (b.2.feat, (pySplit b.2.tokenid).map pyInt))) ∧
      (use_spk = true → ∃ sp2, sp = some sp2 ∧
        sp2.Perm ((batch.filter (fun b => decide (pySplit b.2.tokenid ≠ []))).map
          (fun b => b.2.spemb))) ∧
      (use_spk = false → sp = none) := by
  have hcoll : collectYs (batch.map (fun b => pySplit b.2.tokenid))
      (List.insertionSort (liatLE (batch.map (fun b => b.2.feat)))
        ((List.range (batch.map (fun b => b.2.feat)).length).filter
          (fun i =>
            decide (0 < ((batch.map (fun b => pySplit b.2.tokenid)).getD i []).length)))) =
      some ((List.insertionSort (liatLE (batch.map (fun b => b.2.feat)))
        ((List.range (batch.map (fun b => b.2.feat)).length).filter
          (fun i =>
            decide (0 < ((batch.map (fun b => pySplit b.2.tokenid)).getD i []).length)))).map
        (fun i => ((batch.map (fun b => pySplit b.2.tokenid)).getD i []).map pyInt)) := by
    apply collectYs_eq_some
    intro i hi
    have hi0 := (List.perm_insertionSort (liatLE (batch.map (fun b => b.2.feat))) _).mem_iff.mp hi
    have hirange := List.mem_range.mp (List.mem_of_mem_filter hi0)
    rw [List.length_map] at hirange
    rw [getD_map_of_lt batch (fun b => pySplit b.2.tokenid) [] uttDummy i hirange]
    exact fromiterInt_eq_some _ (htok _ (getD_mem_of_lt batch uttDummy i hirange))
  simp only [load_inputs_and_targets_body]
  rw [hcoll, Option.map_some']
  cases use_spk with
  | false =>
    refine ⟨_, _, _, rfl, ?_, ?_, ?_, ?_, ?_, ?_⟩
    · simp
    · exact ys2_mem_ne_nil batch
    · exact sorted_map_getD _ _
    · rw [List.zip_map']
      refine idxmap_perm_filtered batch _ _ ?_
      intro i hlt
      rw [getD_map_of_lt batch (fun b => b.2.feat) [] uttDummy i hlt,
        getD_map_of_lt batch (fun b => pySplit b.2.tokenid) [] uttDummy i hlt]
    · intro h
      exact absurd h (by decide)
    · intro _
      rfl
  | true =>
    refine ⟨_, _, _, rfl, ?_, ?_, ?_, ?_, ?_, ?_⟩
    · simp
    · exact ys2_mem_ne_nil batch
    · exact sorted_map_getD _ _
    · rw [List.zip_map']
      refine idxmap_perm_filtered batch _ _ ?_
      intro i hlt
      rw [getD_map_of_lt batch (fun b => b.2.feat) [] uttDummy i hlt,
        getD_map_of_lt batch (fun b => pySplit b.2.tokenid) [] uttDummy i hlt]
    · intro _
      refine ⟨_, rfl, ?_⟩
      refine idxmap_perm_filtered batch _ _ ?_
      intro i hlt
      rw [getD_map_of_lt batch (fun b => b.2.spemb) [] uttDummy i hlt]
    · intro h
      exact absurd h (by decide)

/-! ### Evaluation lemmas for the residual-block tensor operations -/


lemma conv1d_dil_eval [CommRing α] (blk : WNBlock α) (x : T3 α)
    (hC : x.C = blk.residual_channels) (hcausal : blk.use_causal_conv = false)
    (hodd : (blk.kernel_size - 1) % 2 = 0) :
    conv1d blk.dilConv x =
      some { B := x.B, C := blk.gate_channels, T := x.T,
             v := fun b oc t => convVal blk.dilConv x b oc t } := by
  have hT : x.T + 2 * blk.padding - blk.dilation * (blk.kernel_size - 1) = x.T := by
    unfold WNBlock.padding
    rw [hcausal]
    simp only [Bool.false_eq_true, if_false]
    have h2 : 2 * ((blk.kernel_size - 1) / 2) = blk.kernel_size - 1 := by omega
    rw [← mul_assoc, h2, mul_comm (blk.kernel_size - 1) blk.dilation, Nat.add_sub_cancel]
  unfold conv1d
  rw [if_pos (show x.C = blk.dilConv.inC from hC)]
  have hT' : x.T + 2 * blk.dilConv.padding - blk.dilConv.dilation * (blk.dilConv.kernel - 1) = x.T := hT
  rw [hT']
  rfl

lemma conv1d_1x1_eval [CommRing α] (p : Conv1dParams α) (x : T3 α)
    (hC : x.C = p.inC) (hk : p.kernel = 1) (hp : p.padding = 0) :
    conv1d p x =
      some { B := x.B, C := p.outC, T := x.T,
             v := fun b oc t => convVal p x b oc t } := by
  unfold conv1d
  rw [if_pos hC]
  have hT : x.T + 2 * p.padding - p.dilation * (p.kernel - 1) = x.T := by
    rw [hk, hp]
    simp
  rw [hT]

lemma splitHalves_eval (B C T : Nat) (V : Nat → Nat → Nat → α)
    (h2 : C % 2 = 0) (hpos : 0 < C / 2) :
    splitHalves { B := B, C := C, T := T, v := V } =
      some ({ B := B, C := C / 2, T := T, v := V },
            { B := B, C := C / 2, T := T, v := fun b c t => V b (c + C / 2) t }) := by
  unfold splitHalves
  rw [if_pos ⟨show C = 2 * (C / 2) by omega, hpos⟩]

lemma tAdd_eval_same [CommRing α] (B C T : Nat) (V W : Nat → Nat → Nat → α) :
    tAdd { B := B, C := C, T := T, v := V } { B := B, C := C, T := T, v := W } =
      some { B := B, C := C, T := T,
             v := fun b c t =>
               V b c (if T = 1 then 0 else t) + W b c (if T = 1 then 0 else t) } := by
  unfold tAdd
  rw [if_pos ⟨rfl, rfl, Or.inl rfl⟩]
  rw [max_self]

lemma tAdd_eval_bcast [CommRing α] (B C T : Nat) (hT : 0 < T)
    (V W : Nat → Nat → Nat → α) :
    tAdd { B := B, C := C, T := T, v := V } { B := B, C := C, T := 1, v := W } =
      some { B := B, C := C, T := T,
             v := fun b c t => V b c (if T = 1 then 0 else t) + W b c 0 } := by
  unfold tAdd
  rw [if_pos ⟨rfl, rfl, Or.inr (Or.inr rfl)⟩]
  have hm : max T 1 = T := by omega
  rw [hm]
  simp

lemma tMul_eval_same [CommRing α] (B C T : Nat) (V W : Nat → Nat → Nat → α) :
    tMul { B := B, C := C, T := T, v := V } { B := B, C := C, T := T, v := W } =
      some { B := B, C := C, T := T,
             v := fun b c t =>
               V b c (if T = 1 then 0 else t) * W b c (if T = 1 then 0 else t) } := by
  unfold tMul
  rw [if_pos ⟨rfl, rfl, Or.inl rfl⟩]
  rw [max_self]

lemma tAdd_eval_left [CommRing α] (B C T : Nat) (V : Nat → Nat → Nat → α)
    (x : T3 α) (hB : x.B = B) (hC : x.C = C) (hT : x.T = T) :
    tAdd { B := B, C := C, T := T, v := V } x =
      some { B := B, C := C, T := T,
             v := fun b c t =>
               V b c (if T = 1 then 0 else t) + x.v b c (if T = 1 then 0 else t) } := by
  unfold tAdd
  rw [if_pos ⟨hB.symm, hC.symm, Or.inl hT.symm⟩]
  rw [hT, max_self]

lemma tMap_eval (f : α → α) (B C T : Nat) (V : Nat → Nat → Nat → α) :
    tMap f { B := B, C := C, T := T, v := V } =
      { B := B, C := C, T := T, v := fun b c t => f (V b c t) } := rfl

lemma convVal_congr [CommRing α] (p : Conv1dParams α) (x y : T3 α) (b oc t : Nat)
    (hT : x.T = y.T)
    (h : ∀ ic, ic < p.inC → ∀ u, u < x.T → x.v b ic u = y.v b ic u) :
    convVal p x b oc t = convVal p y b oc t := by
  unfold convVal
  congr 1
  apply Finset.sum_congr rfl
  intro ic hic
  apply Finset.sum_congr rfl
  intro k _
  rw [← hT]
  split_ifs with hg
  · rw [h ic (Finset.mem_range.mp hic) _ hg.2]
  · rfl

/-! ## Claim theorems: `make_batchset` (C3, C4) -/

/-- C3: on a non-empty data mapping with positive `batch_size`,
`max_length_in` and `max_length_out`, every batch produced by
`make_batchset` is non-empty, and its size is bounded by
`max 1 (batch_size / (1 + max (ilen / max_length_in) (olen / max_length_out)))`
computed from the input/output lengths of the batch's first (longest-input)
element. -/
theorem make_batchset_size_bounds
    (data : List (String × Utt))
    (batch_size max_length_in max_length_out num_batches : Nat)
    (hne : data ≠ []) (hbs : 0 < batch_size) (hin : 0 < max_length_in)
    (hout : 0 < max_length_out) :
    ∃ mb, make_batchset data batch_size max_length_in max_length_out num_batches = some mb ∧
      ∀ batch ∈ mb, 0 < batch.length ∧
        ∀ e rest, batch = e :: rest →
          batch.length ≤
            max 1 (batch_size /
              (1 + max (e.2.inputShape0 / max_length_in)
                (e.2.outputShape0 / max_length_out))) := by
  have hsne : List.insertionSort batchsetLE data ≠ [] := by
    intro h
    have hp := List.perm_insertionSort batchsetLE data
    rw [h] at hp
    exact hne (List.length_eq_zero.mp hp.length_eq.symm)
  unfold make_batchset
  cases hs : List.insertionSort batchsetLE data with
  | nil => exact absurd hs hsne
  | cons e rest =>
    refine ⟨_, rfl, ?_⟩
    intro batch hb
    have hb' : batch ∈ chunkBatches batch_size max_length_in max_length_out (e :: rest) := by
      by_cases hnb : 0 < num_batches
      · rw [if_pos hnb] at hb
        exact List.take_subset _ _ hb
      · rwa [if_neg hnb] at hb
    obtain ⟨e', rest', hcons, hbound⟩ :=
      chunkBatches_mem batch_size max_length_in max_length_out (e :: rest) batch hb'
    constructor
    · rw [hcons]
      exact Nat.succ_pos _
    · intro e2 rest2 h2
      rw [h2] at hcons
      injection hcons with h1 _
      subst h1
      exact hbound

/-- C3, witness at a concrete two-utterance mapping. -/
theorem make_batchset_size_bounds_witness :
    (([("a", uttA), ("b", uttB)] : List (String × Utt)) ≠ [] ∧
      0 < 2 ∧ 0 < 4 ∧ 0 < 4) ∧
    (∃ mb, make_batchset [("a", uttA), ("b", uttB)] 2 4 4 0 = some mb ∧
      ∀ batch ∈ mb, 0 < batch.length ∧
        ∀ e rest, batch = e :: rest →
          batch.length ≤
            max 1 (2 / (1 + max (e.2.inputShape0 / 4) (e.2.outputShape0 / 4)))) :=
  ⟨⟨by decide, by decide, by decide, by decide⟩,
    make_batchset_size_bounds [("a", uttA), ("b", uttB)] 2 4 4 0
      (by decide) (by decide) (by decide) (by decide)⟩

/-- C4: on a non-empty data mapping with `num_batches = 0`, the
concatenation of the batches returned by `make_batchset` is exactly the
entries of the mapping sorted by input length in descending order — a
permutation of the data (no utterance dropped or duplicated) in
descending-input-length order. -/
theorem make_batchset_exhaustive
    (data : List (String × Utt))
    (batch_size max_length_in max_length_out : Nat) (hne : data ≠ []) :
    ∃ mb, make_batchset data batch_size max_length_in max_length_out 0 = some mb ∧
      mb.flatten = List.insertionSort batchsetLE data ∧
      mb.flatten.Perm data ∧
      mb.flatten.Sorted batchsetLE := by
  have hsne : List.insertionSort batchsetLE data ≠ [] := by
    intro h
    have hp := List.perm_insertionSort batchsetLE data
    rw [h] at hp
    exact hne (List.length_eq_zero.mp hp.length_eq.symm)
  unfold make_batchset
  cases hs : List.insertionSort batchsetLE data with
  | nil => exact absurd hs hsne
  | cons e rest =>
    refine ⟨_, rfl, ?_, ?_, ?_⟩
    · rw [if_neg (by omega)]
      rw [chunkBatches_flatten]
    · rw [if_neg (by omega), chunkBatches_flatten, ← hs]
      exact List.perm_insertionSort batchsetLE data
    · rw [if_neg (by omega), chunkBatches_flatten, ← hs]
      exact List.sorted_insertionSort batchsetLE data

/-- C4, witness at a concrete two-utterance mapping. -/
theorem make_batchset_exhaustive_witness :
    (([("a", uttA), ("b", uttB)] : List (String × Utt)) ≠ []) ∧
    (∃ mb, make_batchset [("a", uttA), ("b", uttB)] 2 4 4 0 = some mb ∧
      mb.flatten = List.insertionSort batchsetLE [("a", uttA), ("b", uttB)] ∧
      mb.flatten.Perm [("a", uttA), ("b", uttB)] ∧
      mb.flatten.Sorted batchsetLE) :=
  ⟨by decide, make_batchset_exhaustive [("a", uttA), ("b", uttB)] 2 4 4 (by decide)⟩

/-! ## Claim theorems: `load_labeldict` (C1) -/

/-- C1, counterexample: a label-dictionary file is free to redefine
`<blank>`; on the single-line file `"<blank> 5"` the loader accepts the file
but returns a dictionary mapping `<blank>` to 5, not 0, so the claim as
stated fails. -/
theorem load_labeldict_blank_overridden :
    (load_labeldict ["<blank> 5"]).isSome = true ∧
    (load_labeldict ["<blank> 5"]).bind (fun d => d.lookup "<blank>") = some 5 ∧
    (load_labeldict ["<blank> 5"]).bind (fun d => d.lookup "<blank>") ≠ some 0 := by
  refine ⟨by decide, by decide, by decide⟩

/-- C1, amended: for every file accepted by `load_labeldict`, if no line of
the file defines the symbol `<blank>` then the returned dictionary maps
`<blank>` to 0, and if no line defines `<eos>` then the dictionary maps
`<eos>` to the number of entries present after reading the file. -/
theorem load_labeldict_blank_eos (lines : List String) (d : List (String × Int))
    (hacc : load_labeldict lines = some d) :
    ((∀ ln ∈ lines, (pySplit ln).head? ≠ some "<blank>") →
        d.lookup "<blank>" = some 0) ∧
    ((∀ ln ∈ lines, (pySplit ln).head? ≠ some "<eos>") →
        ∃ d0, labeldictRead lines = some d0 ∧
          d = d0 ++ [("<eos>", (d0.length : Int))] ∧
          d.lookup "<eos>" = some (d0.length : Int)) := by
  obtain ⟨d0, hd0, hd⟩ := Option.map_eq_some'.mp hacc
  constructor
  · intro hblank
    have hl0 : d0.lookup "<blank>" = some 0 :=
      labeldictFold_lookup "<blank>" lines [("<blank>", 0)] d0 hblank hd0
    subst hd
    by_cases he : dictHas d0 "<eos>"
    · simpa [he] using hl0
    · simp only [Bool.not_eq_true] at he
      simp only [he, Bool.false_eq_true, if_false]
      exact lookup_append_of_some d0 _ "<blank>" 0 hl0
  · intro heos
    have hh : dictHas d0 "<eos>" = dictHas [("<blank>", 0)] "<eos>" :=
      labeldictFold_has "<eos>" lines [("<blank>", 0)] d0 heos hd0
    have hh0 : dictHas d0 "<eos>" = false := by
      rw [hh]; decide
    have hdval : d = d0 ++ [("<eos>", (d0.length : Int))] := by
      rw [← hd, hh0]
      simp
    refine ⟨d0, hd0, hdval, ?_⟩
    rw [hdval,
      lookup_append_of_none d0 _ "<eos>" (lookup_eq_none_of_not_has "<eos>" d0 hh0)]
    simp [List.lookup]

/-- C1, witness for the amended theorem at the concrete one-line file
`"a 1"`. -/
theorem load_labeldict_blank_eos_witness :
    (load_labeldict ["a 1"] = some labeldictWitDict) ∧
    (((∀ ln ∈ ["a 1"], (pySplit ln).head? ≠ some "<blank>") →
        labeldictWitDict.lookup "<blank>" = some 0) ∧
      ((∀ ln ∈ ["a 1"], (pySplit ln).head? ≠ some "<eos>") →
        ∃ d0, labeldictRead ["a 1"] = some d0 ∧
          labeldictWitDict = d0 ++ [("<eos>", (d0.length : Int))] ∧
          labeldictWitDict.lookup "<eos>" = some (d0.length : Int))) :=
  ⟨by decide, load_labeldict_blank_eos ["a 1"] labeldictWitDict (by decide)⟩

/-! ## Claim theorems: `Frontend.forward` (C5, C6, C7) -/

/-- C5: on a 3-dimensional input (with matching `len(x) == len(ilens)`),
`Frontend.forward` returns the input unchanged, for every configuration of
the stages, every training mode and every coin-flip outcome. -/
theorem frontend_dim3_identity (f : Frontend) (coin : Bool) (x : CTensor)
    (ilens : List Nat) (hlen : x.len = ilens.length) (hdim : x.dim = 3) :
    f.forward coin x ilens = Except.ok (x, ilens) := by
  unfold Frontend.forward
  rw [if_neg (by simp [hlen])]
  rw [if_neg (by simp [hdim])]
  rw [if_neg (by omega)]

/-- C5, witness at a concrete 3-dimensional tensor and fully-enabled
training-mode frontend. -/
theorem frontend_dim3_identity_witness :
    (CTensor.len ct3 = ([4, 4] : List Nat).length ∧ CTensor.dim ct3 = 3) ∧
    frontendWit.forward true ct3 [4, 4] = Except.ok (ct3, [4, 4]) :=
  ⟨⟨by decide, by decide⟩,
    frontend_dim3_identity frontendWit true ct3 [4, 4] (by decide) (by decide)⟩

/-- C6: with `len(x) == len(ilens)`, `Frontend.forward` raises an error
exactly when the input dimensionality is below 3 or above 4; inputs of
dimensionality 3 or 4 never raise. -/
theorem frontend_error_iff_dim (f : Frontend) (coin : Bool) (x : CTensor)
    (ilens : List Nat) (hlen : x.len = ilens.length) :
    (∃ err, f.forward coin x ilens = Except.error err) ↔
      (x.dim < 3 ∨ 4 < x.dim) := by
  unfold Frontend.forward
  rw [if_neg (by simp [hlen])]
  by_cases h34 : x.dim = 3 ∨ x.dim = 4
  · rw [if_neg (not_not_intro h34)]
    constructor
    · intro ⟨err, herr⟩
      by_cases h4 : x.dim = 4
      · rw [if_pos h4] at herr
        cases herr
      · rw [if_neg h4] at herr
        cases herr
    · intro h
      omega
  · rw [if_pos h34]
    exact ⟨fun _ => by omega, fun _ => ⟨FrontendErr.dimValueErr, rfl⟩⟩

/-- C6, witness at a concrete 3-dimensional tensor. -/
theorem frontend_error_iff_dim_witness :
    (CTensor.len ct3 = ([4, 4] : List Nat).length) ∧
    ((∃ err, frontendWit.forward false ct3 [4, 4] = Except.error err) ↔
      (CTensor.dim ct3 < 3 ∨ 4 < CTensor.dim ct3)) :=
  ⟨by decide, frontend_error_iff_dim frontendWit false ct3 [4, 4] (by decide)⟩

/-- C7: on a 4-dimensional input, when training with beamformer, WPE and the
neural WPE mask all enabled, exactly one of the two stages runs — WPE if the
coin selects it, the beamformer otherwise, never both and never neither;
in every other configuration each enabled stage runs, dereverberation first
and then beamforming. -/
theorem frontend_stage_selection (f : Frontend) (coin : Bool) (x : CTensor)
    (ilens : List Nat) (hlen : x.len = ilens.length) (hdim : x.dim = 4) :
    ((f.training ∧ f.use_beamformer ∧ f.use_wpe ∧ f.use_dnn_mask_for_wpe) →
        f.forward coin x ilens =
          Except.ok (if coin then f.wpe x ilens else f.beamformer x ilens)) ∧
    (¬(f.training ∧ f.use_beamformer ∧ f.use_wpe ∧ f.use_dnn_mask_for_wpe) →
        f.forward coin x ilens =
          Except.ok
            (if f.use_beamformer then
              f.beamformer (if f.use_wpe then f.wpe x ilens else (x, ilens)).1
                (if f.use_wpe then f.wpe x ilens else (x, ilens)).2
            else if f.use_wpe then f.wpe x ilens else (x, ilens))) := by
  unfold Frontend.forward
  rw [if_neg (by simp [hlen])]
  rw [if_neg (by simp [hdim])]
  rw [if_pos hdim]
  constructor
  · intro hcond
    rw [if_pos hcond]
    cases coin with
    | true => simp
    | false => simp
  · intro hncond
    rw [if_neg hncond]

/-- C7, witness at a concrete 4-dimensional tensor and fully-enabled
training-mode frontend. -/
theorem frontend_stage_selection_witness :
    (CTensor.len ct4 = ([4, 4] : List Nat).length ∧ CTensor.dim ct4 = 4) ∧
    (((frontendWit.training ∧ frontendWit.use_beamformer ∧ frontendWit.use_wpe ∧
          frontendWit.use_dnn_mask_for_wpe) →
        frontendWit.forward true ct4 [4, 4] =
          Except.ok (if true then frontendWit.wpe ct4 [4, 4]
            else frontendWit.beamformer ct4 [4, 4])) ∧
      (¬(frontendWit.training ∧ frontendWit.use_beamformer ∧ frontendWit.use_wpe ∧
          frontendWit.use_dnn_mask_for_wpe) →
        frontendWit.forward true ct4 [4, 4] =
          Except.ok
            (if frontendWit.use_beamformer then
              frontendWit.beamformer
                (if frontendWit.use_wpe then frontendWit.wpe ct4 [4, 4] else (ct4, [4, 4])).1
                (if frontendWit.use_wpe then frontendWit.wpe ct4 [4, 4] else (ct4, [4, 4])).2
            else if frontendWit.use_wpe then frontendWit.wpe ct4 [4, 4] else (ct4, [4, 4])))) :=
  ⟨⟨by decide, by decide⟩,
    frontend_stage_selection frontendWit true ct4 [4, 4] (by decide) (by decide)⟩

/-! ## Claim theorems: `WaveNetResidualBlock` (C8, C9) -/

/-- C8: in eval mode, for a well-formed non-causal block with local and
global conditioning given, `WaveNetResidualBlock.forward` computes exactly
the specified gating pipeline: the dilated convolution of `x` split
channel-wise into halves, the projected conditionings split and added
half-to-half, the gate `tanh(xa) * sigmoid(xb)`, the residual output
`(conv1x1_out(gated) + x) * sqrt(0.5)`, and the skip output
`conv1x1_skip(gated)`. -/
theorem wnblock_forward_gating [CommRing α] (ops : ScalarOps α) (blk : WNBlock α)
    (dmask : Nat → Nat → Nat → α) (x c0 g0 : T3 α)
    (hcausal : blk.use_causal_conv = false)
    (hodd : (blk.kernel_size - 1) % 2 = 0)
    (hgc2 : blk.gate_channels % 2 = 0)
    (hgcpos : 0 < blk.gate_channels / 2)
    (hxC : x.C = blk.residual_channels)
    (hxT : 0 < x.T)
    (haux : 0 < blk.aux_channels) (hcC : c0.C = blk.aux_channels.toNat)
    (hcB : c0.B = x.B) (hcT : c0.T = x.T)
    (hglo : 0 < blk.global_channels) (hgC : g0.C = blk.global_channels.toNat)
    (hgB : g0.B = x.B) (hgT : g0.T = 1)
    (hskip : 0 < blk.skip_channels) :
    ∃ res skip,
      WNBlock.forward ops blk false dmask x (some c0) (some g0) = some (res, some skip) ∧
      res.B = x.B ∧ res.C = x.C ∧ res.T = x.T ∧
      skip.B = x.B ∧ skip.C = blk.skip_channels ∧ skip.T = x.T ∧
      (∀ b ch t, t < x.T → res.v b ch t = (specResidualOut ops blk x c0 g0).v b ch t) ∧
      (∀ b ch t, t < x.T → skip.v b ch t = (specSkipOut ops blk x c0 g0).v b ch t) := by
  have hdrop : dropoutT false dmask x = x := rfl
  unfold WNBlock.forward
  simp only [hdrop, Option.bind_eq_bind, Option.some_bind,
    conv1d_dil_eval blk x hxC hcausal hodd,
    conv1d_1x1_eval, splitHalves_eval, tAdd_eval_same, tAdd_eval_bcast,
    tMul_eval_same, tMap_eval,
    tAdd_eval_left, if_true,
    WNBlock.auxConv, WNBlock.gloConv, WNBlock.outConv, WNBlock.skipConv,
    haux, hglo, hskip, hxT, hgc2, hgcpos, hcC, hcB, hcT, hgC, hgB, hgT, hxC]
  have hidx : ∀ u : Nat, u < x.T → (if x.T = 1 then (0 : Nat) else u) = u := by
    intro u hu
    split_ifs with h1
    · omega
    · rfl
  refine ⟨_, _, rfl, rfl, rfl, rfl, rfl, rfl, rfl, ?_, ?_⟩
  · intro b ch t ht
    dsimp only [tScale, specResidualOut, specGated, specXa, specXb,
      WNBlock.outConv, WNBlock.auxConv, WNBlock.gloConv]
    rw [hidx t ht]
    refine congrArg (fun z => (z + x.v b ch t) * ops.sqrtHalf) ?_
    refine convVal_congr _ _ _ b ch t rfl ?_
    intro ic _ u hu
    dsimp only
    rw [hidx u hu, hidx u hu, hidx u hu]
  · intro b ch t ht
    dsimp only [specSkipOut, specGated, specXa, specXb,
      WNBlock.skipConv, WNBlock.auxConv, WNBlock.gloConv]
    refine convVal_congr _ _ _ b ch t rfl ?_
    intro ic _ u hu
    dsimp only
    rw [hidx u hu, hidx u hu, hidx u hu]

/-- C8, witness at a concrete kernel-size-1 block and all-zero `(1,1,1)`
tensors over `Int`. -/
theorem wnblock_forward_gating_witness :
    (wnBlockWit.use_causal_conv = false ∧
      (wnBlockWit.kernel_size - 1) % 2 = 0 ∧
      wnBlockWit.gate_channels % 2 = 0 ∧
      0 < wnBlockWit.gate_channels / 2 ∧
      (t3Zero 1 1 1).C = wnBlockWit.residual_channels ∧
      0 < (t3Zero 1 1 1).T ∧
      0 < wnBlockWit.aux_channels ∧
      (t3Zero 1 1 1).C = wnBlockWit.aux_channels.toNat ∧
      (t3Zero 1 1 1).B = (t3Zero 1 1 1).B ∧
      (t3Zero 1 1 1).T = (t3Zero 1 1 1).T ∧
      0 < wnBlockWit.global_channels ∧
      (t3Zero 1 1 1).C = wnBlockWit.global_channels.toNat ∧
      (t3Zero 1 1 1).T = 1 ∧
      0 < wnBlockWit.skip_channels) ∧
    (∃ res skip,
      WNBlock.forward opsIdInt wnBlockWit false (fun _ _ _ => 0) (t3Zero 1 1 1)
          (some (t3Zero 1 1 1)) (some (t3Zero 1 1 1)) = some (res, some skip) ∧
      res.B = (t3Zero 1 1 1).B ∧ res.C = (t3Zero 1 1 1).C ∧ res.T = (t3Zero 1 1 1).T ∧
      skip.B = (t3Zero 1 1 1).B ∧ skip.C = wnBlockWit.skip_channels ∧
      skip.T = (t3Zero 1 1 1).T ∧
      (∀ b ch t, t < (t3Zero 1 1 1).T →
        res.v b ch t =
          (specResidualOut opsIdInt wnBlockWit (t3Zero 1 1 1) (t3Zero 1 1 1)
            (t3Zero 1 1 1)).v b ch t) ∧
      (∀ b ch t, t < (t3Zero 1 1 1).T →
        skip.v b ch t =
          (specSkipOut opsIdInt wnBlockWit (t3Zero 1 1 1) (t3Zero 1 1 1)
            (t3Zero 1 1 1)).v b ch t)) :=
  ⟨by decide,
    wnblock_forward_gating opsIdInt wnBlockWit (fun _ _ _ => 0) (t3Zero 1 1 1)
      (t3Zero 1 1 1) (t3Zero 1 1 1) (by decide) (by decide) (by decide) (by decide)
      (by decide) (by decide) (by decide) (by decide) (by decide) (by decide)
      (by decide) (by decide) (by decide) (by decide) (by decide)⟩

/-- C9: in a causal configuration with kernel size above 1,
`WaveNetResidualBlock.forward` raises a shape-mismatch error instead of
returning a residual output shaped like the input: the causal dilated
convolution lengthens the time axis by `(kernel_size - 1) * dilation` and
the forward never truncates it back (`self.use_causal_conv` is stored but
unused in `forward`), so the final `conv1x1_out(x) + residual` addition
fails.  The same block with `use_causal_conv = False` succeeds. -/
theorem wnblock_causal_shape_crash :
    (WNBlock.forward opsIdInt wnBlockCausal false (fun _ _ _ => 0)
        (t3Zero 1 1 2) none none) = none ∧
    (WNBlock.forward opsIdInt { wnBlockCausal with use_causal_conv := false } false
        (fun _ _ _ => 0) (t3Zero 1 1 2) none none).isSome = true :=
  ⟨rfl, rfl⟩

/-! ## Claim theorems: `check_install.py` (C2) -/

/-- C2: the check loop is not non-fatal on every requirements listing.  A
library pinned with `==` that is not importable makes the version-check
re-import raise an uncaught `ImportError` (the surrounding `try` catches only
`AssertionError`), terminating the script; the same missing library without
a pin is handled as the claim says, with a warning and a `False` flag. -/
theorem check_install_pinned_missing_fatal :
    checkLibraries (fun _ => none) [("foo", some "1.0")] =
      Except.error PyExc.importErr ∧
    checkLibraries (fun _ => none) [("foo", none)] =
      Except.ok ([false], [LogLevel.warning]) :=
  ⟨rfl, rfl⟩

/-! ## Claim theorems: `load_inputs_and_targets` (C10) -/

/-- C10 (code bug): the claim describes the lists computed by the body of
`load_inputs_and_targets`, but the function can never return them.  Its
`assert isinstance(batch[0], dict)` raises `AssertionError` on every
non-empty batch of `(uttid, info)` pairs — the element shape its own
`b[1]['input']` accesses require — and `batch[0]` raises `IndexError` on an
empty batch, so the function raises before its body runs.  The body itself,
run without the assert on batches whose token-id strings parse as ints,
satisfies every claimed property: feature and target lists of equal length,
all target sequences non-empty, descending feature-length order, and the
empty-split samples dropped from both lists (and from the speaker-embedding
list exactly when `use_speaker_embedding` is true). -/
theorem load_inputs_and_targets_assert_fatal
    (batch : List (String × Utt)) (use_spk : Bool) (hne : batch ≠ [])
    (htok : ∀ b ∈ batch, ∀ tok ∈ pySplit b.2.tokenid, (pyParseInt tok).isSome) :
    load_inputs_and_targets batch use_spk = none ∧
    (∃ xs2 ys2 sp,
      load_inputs_and_targets_body batch use_spk = some (xs2, ys2, sp) ∧
      xs2.length = ys2.length ∧
      (∀ y ∈ ys2, y ≠ []) ∧
      xs2.Sorted (fun a b => b.length ≤ a.length) ∧
      (xs2.zip ys2).Perm
        ((batch.filter (fun b => decide (pySplit b.2.tokenid ≠ []))).map
          (fun b => (b.2.feat, (pySplit b.2.tokenid).map pyInt))) ∧
      (use_spk = true → ∃ sp2, sp = some sp2 ∧
        sp2.Perm ((batch.filter (fun b => decide (pySplit b.2.tokenid ≠ []))).map
          (fun b => b.2.spemb))) ∧
      (use_spk = false → sp = none)) := by
  constructor
  · cases batch with
    | nil => exact absurd rfl hne
    | cons hd tl => rfl
  · exact load_inputs_and_targets_body_spec batch use_spk htok

/-- C10, witness at a concrete three-utterance batch containing one
empty-tokenid sample, with speaker embeddings enabled. -/
theorem load_inputs_and_targets_assert_fatal_witness :
    (([("a", uttA), ("e", uttEmptyTok), ("b", uttB)] : List (String × Utt)) ≠ [] ∧
      (∀ b ∈ ([("a", uttA), ("e", uttEmptyTok), ("b", uttB)] : List (String × Utt)),
        ∀ tok ∈ pySplit b.2.tokenid, (pyParseInt tok).isSome)) ∧
    (load_inputs_and_targets [("a", uttA), ("e", uttEmptyTok), ("b", uttB)] true = none ∧
    (∃ xs2 ys2 sp,
      load_inputs_and_targets_body [("a", uttA), ("e", uttEmptyTok), ("b", uttB)] true =
        some (xs2, ys2, sp) ∧
      xs2.length = ys2.length ∧
      (∀ y ∈ ys2, y ≠ []) ∧
      xs2.Sorted (fun a b => b.length ≤ a.length) ∧
      (xs2.zip ys2).Perm
        (([("a", uttA), ("e", uttEmptyTok), ("b", uttB)].filter
            (fun b => decide (pySplit b.2.tokenid ≠ []))).map
          (fun b => (b.2.feat, (pySplit b.2.tokenid).map pyInt))) ∧
      (true = true → ∃ sp2, sp = some sp2 ∧
        sp2.Perm (([("a", uttA), ("e", uttEmptyTok), ("b", uttB)].filter
            (fun b => decide (pySplit b.2.tokenid ≠ []))).map
          (fun b => b.2.spemb))) ∧
      (true = false → sp = none))) :=
  ⟨⟨by decide, by decide⟩,
    load_inputs_and_targets_assert_fatal [("a", uttA), ("e", uttEmptyTok), ("b", uttB)]
      true (by decide) (by decide)⟩

end A3T
